import Mathlib

/-!
Shallow embedding of the session-state logic of `src/GeminiChatBot.py`:
the thread store (`chats`, `chat_titles`, `active_chat`, `chat_counter`),
the sidebar operations (new chat, select, delete), the submission handler
and the title generator.  Python dicts are modelled as association lists
in insertion order (Python dicts preserve insertion order, and
`list(d.keys())[0]` is the first inserted key).  External API calls are
modelled as oracle parameters: the completion call is an
`Except String String` (error cause or reply text) and the
title-generation call is an `Option String` (`none` = the call raised).
-/

namespace GeminiChatBot

/-- One message of a conversation: `{"role": ..., "content": ...}`. -/
structure Turn where
  role : String
  content : String
deriving DecidableEq

abbrev History := List Turn

/-- Association-list lookup, mirroring Python `d.get(k)` / `k in d`. -/
def lookupA {α : Type} (k : String) : List (String × α) → Option α
  | [] => none
  | (k', v) :: rest => if k' = k then some v else lookupA k rest

/-- Python `k in d`. -/
def hasKey {α : Type} (k : String) (l : List (String × α)) : Bool :=
  (lookupA k l).isSome

/-- Python `d[k] = v`: update the existing entry in place, else append
(insertion-order semantics of Python dicts). -/
def insertA {α : Type} (k : String) (v : α) : List (String × α) → List (String × α)
  | [] => [(k, v)]
  | (k', v') :: rest => if k' = k then (k, v) :: rest else (k', v') :: insertA k v rest

/-- Python `del d[k]`: drop the entry keyed `k` (keys are unique in a
Python dict, so dropping every such entry is the same thing). -/
def eraseA {α : Type} (k : String) : List (String × α) → List (String × α)
  | [] => []
  | (k', v) :: rest => if k' = k then eraseA k rest else (k', v) :: eraseA k rest

/-- Python `list(d.keys())`. -/
def keysA {α : Type} (l : List (String × α)) : List String :=
  l.map Prod.fst

/-- The seed greeting turn every fresh thread starts with (lines 31-33, 61-63, 98-100). -/
def greeting : Turn :=
  ⟨"model", "Hello! How can I assist you today?"⟩

/-- The session state (lines 30-41; the pending `user_input` buffer is not
part of the thread store and is omitted). -/
structure SessionState where
  chats : List (String × History)
  chat_titles : List (String × String)
  active_chat : String
  chat_counter : Nat
deriving DecidableEq

/-- Initialization of the session state (lines 30-39). -/
def initState : SessionState :=
  { chats := [("Chat 1", [greeting])]
    chat_titles := [("Chat 1", "Chat 1")]
    active_chat := "Chat 1"
    chat_counter := 1 }

/-- Embedding of `get_active_chat_history` (lines 44-45). -/
def get_active_chat_history (s : SessionState) : History :=
  (lookupA s.active_chat s.chats).getD []

/-- Python `s.strip()` over the code points of `s`: drop leading and
trailing whitespace. -/
def pyStrip (l : List Char) : List Char :=
  ((l.dropWhile Char.isWhitespace).reverse.dropWhile Char.isWhitespace).reverse

/-- Python `s.split("\n")[0]`: the first line, i.e. everything before the
first newline. -/
def firstLine (l : List Char) : List Char :=
  l.takeWhile (fun c => c ≠ '\n')

/-- Helper for `pySplitWs`: accumulate the current word (reversed in `acc`)
while splitting on whitespace runs. -/
def pySplitWsAux : List Char → List Char → List (List Char)
  | [], acc => if acc = [] then [] else [acc.reverse]
  | c :: rest, acc =>
      if c.isWhitespace then
        if acc = [] then pySplitWsAux rest []
        else acc.reverse :: pySplitWsAux rest []
      else pySplitWsAux rest (c :: acc)

/-- Python `original_prompt.split()`: split on runs of whitespace,
dropping empty pieces. -/
def pySplitWs (s : String) : List (List Char) :=
  pySplitWsAux s.data []

/-- The sanitization applied to a successful title response (lines 85-87):
`title = response.text.strip().split("\n")[0]`,
`title = title.replace("*", "").replace("\"", "").strip()`, `return title[:50]`
(`replace` with a one-character pattern and empty replacement removes every
occurrence of that character; `[:50]` keeps the first 50 code points). -/
def sanitizeTitle (text : String) : String :=
  let title := firstLine (pyStrip text.data)
  let title := pyStrip ((title.filter (fun c => c ≠ '*')).filter (fun c => c ≠ '"'))
  String.mk (title.take 50)

/-- Embedding of `generate_title_from_summary` (lines 77-90).  The outcome of the
title-model call is the oracle `titleResp` (`some text` = the API returned
`text`; `none` = any exception, caught at line 88).  On failure the
fallback of line 90 applies:
`(" ".join(original_prompt.split()[:5]) + "...") if original_prompt else "New Chat"`. -/
def generate_title_from_summary (titleResp : Option String) (original_prompt : String) : String :=
  match titleResp with
  | some text => sanitizeTitle text
  | none =>
      if original_prompt ≠ "" then
        String.mk (List.intercalate [' '] ((pySplitWs original_prompt).take 5) ++ ['.', '.', '.'])
      else "New Chat"

/-- Embedding of `delete_chat` (lines 50-66). -/
def delete_chat (chat_id : String) (s : SessionState) : SessionState :=
  if hasKey chat_id s.chats then
    let chats := eraseA chat_id s.chats
    let titles :=
      if hasKey chat_id s.chat_titles then eraseA chat_id s.chat_titles
      else s.chat_titles
    if chat_id = s.active_chat then
      match chats with
      | [] =>
          -- no chats left: reset the counter and synthesize "Chat 1" (lines 58-65)
          { chats := insertA "Chat 1" [greeting] chats
            chat_titles := insertA "Chat 1" "Chat 1" titles
            active_chat := "Chat 1"
            chat_counter := 1 }
      | (k, _) :: _ =>
          -- active := list(chats.keys())[0] (line 57)
          { chats := chats, chat_titles := titles, active_chat := k,
            chat_counter := s.chat_counter }
    else
      { chats := chats, chat_titles := titles, active_chat := s.active_chat,
        chat_counter := s.chat_counter }
  else s

/-- The "New Chat" button handler (lines 95-103). -/
def new_chat (s : SessionState) : SessionState :=
  let counter := s.chat_counter + 1
  let new_id := "Chat " ++ toString counter
  { chats := insertA new_id [greeting] s.chats
    chat_titles := insertA new_id new_id s.chat_titles
    active_chat := new_id
    chat_counter := counter }

/-- The chat-selection button handler (lines 110-117); the sidebar offers a
button only for identifiers present in `chats` (line 105-106). -/
def select_chat (chat_id : String) (s : SessionState) : SessionState :=
  { s with active_chat := chat_id }

/-- Embedding of `handle_chat_submission` (lines 126-155).  The outcome of
`model.generate_content` is the oracle `completion` (`Except.ok reply` =
success with `reply = response.text`; `Except.error e` = any exception with
`str(e) = e`); `titleResp` is the title-model oracle passed on to
`generate_title_from_summary`. -/
def handle_chat_submission (prompt_text : String) (completion : Except String String)
    (titleResp : Option String) (s : SessionState) : SessionState :=
  if prompt_text = "" then s
  else
    let hist := get_active_chat_history s
    let hist := hist ++ [⟨"user", prompt_text⟩]
    match completion with
    | .ok reply_text =>
        let hist := hist ++ [⟨"model", reply_text⟩]
        let is_default_title :=
          (lookupA s.active_chat s.chat_titles).getD "" = s.active_chat
        let titles :=
          if is_default_title ∧ hist.length ≥ 2 then
            let user_prompt_for_title :=
              ((hist.get? (hist.length - 2)).map Turn.content).getD ""
            insertA s.active_chat
              (generate_title_from_summary titleResp user_prompt_for_title)
              s.chat_titles
          else s.chat_titles
        { chats := insertA s.active_chat hist s.chats, chat_titles := titles,
          active_chat := s.active_chat, chat_counter := s.chat_counter }
    | .error e =>
        let error_message := "An error occurred: " ++ e
        let hist := hist ++ [⟨"model", "Error: " ++ error_message⟩]
        { chats := insertA s.active_chat hist s.chats, chat_titles := s.chat_titles,
          active_chat := s.active_chat, chat_counter := s.chat_counter }

/-- Whether a submission takes the retitle branch (lines 143-147):
`is_default_title and len(active_chat_history) >= 2`, reached only on
a non-empty prompt whose completion succeeded. -/
def retitle_invoked (prompt_text : String) (completion : Except String String)
    (s : SessionState) : Bool :=
  match completion with
  | .error _ => false
  | .ok reply_text =>
      if prompt_text = "" then false
      else
        let hist := get_active_chat_history s ++
          [⟨"user", prompt_text⟩, ⟨"model", reply_text⟩]
        decide ((lookupA s.active_chat s.chat_titles).getD "" = s.active_chat)
          && decide (hist.length ≥ 2)

deriving instance DecidableEq for Except

/-- One user-facing operation on the session state. -/
inductive Op where
  | newChat : Op
  | select : String → Op
  | delete : String → Op
  | submit : String → Except String String → Option String → Op
deriving DecidableEq

/-- The step function: how each user-facing operation transforms the state. -/
def step (s : SessionState) : Op → SessionState
  | .newChat => new_chat s
  | .select id => select_chat id s
  | .delete id => delete_chat id s
  | .submit p c t => handle_chat_submission p c t s

/-- An operation the view can actually issue: selection buttons exist only
for identifiers present in `chats` (lines 105-117); all other operations
are unrestricted. -/
def validOp (s : SessionState) : Op → Bool
  | .select id => hasKey id s.chats
  | _ => true

/-- A trace of operations each of which the view can issue in its state. -/
def validTraceB (s : SessionState) : List Op → Bool
  | [] => true
  | op :: ops => validOp s op && validTraceB (step s op) ops

/-- Run a trace of operations. -/
def run (s : SessionState) : List Op → SessionState
  | [] => s
  | op :: ops => run (step s op) ops

/-- A session state reachable from initialization by view-issuable operations. -/
def Reachable (s : SessionState) : Prop :=
  ∃ ops : List Op, validTraceB initState ops = true ∧ run initState ops = s

/-- True for the operations a pure create/delete (or select/submit)
classification needs: here, everything except `newChat` and `delete`. -/
def isThreadNeutral : Op → Bool
  | .newChat => false
  | .delete _ => false
  | _ => true

/-- True exactly for `newChat` and `delete` operations. -/
def isCreateDelete : Op → Bool
  | .newChat => true
  | .delete _ => true
  | _ => false

/-- How many times a trace takes the retitle branch for thread `tid`. -/
def retitleCount (tid : String) (s : SessionState) : List Op → Nat
  | [] => 0
  | op :: ops =>
      (match op with
       | .submit p c _ =>
           if s.active_chat = tid ∧ retitle_invoked p c s = true then 1 else 0
       | _ => 0) + retitleCount tid (step s op) ops

/-- The sanitization procedure exactly as the specification words it
(for comparison with `sanitizeTitle`, which is translated from the code):
take only the first line of the returned text, remove all asterisk and
double-quote characters, trim surrounding whitespace, truncate to 50. -/
def sanitizeTitleSpec (text : String) : String :=
  let title := firstLine text.data
  let title := (title.filter (fun c => c ≠ '*')).filter (fun c => c ≠ '"')
  String.mk ((pyStrip title).take 50)

/-! ### Association-list lemmas -/

theorem lookupA_insertA_self {α : Type} (k : String) (v : α) (l : List (String × α)) :
    lookupA k (insertA k v l) = some v := by
  induction l with
  | nil => simp [insertA, lookupA]
  | cons p rest ih =>
      obtain ⟨k', v'⟩ := p
      by_cases h : k' = k
      · simp [insertA, h, lookupA]
      · simp [insertA, h, lookupA, ih]

theorem lookupA_insertA_ne {α : Type} (k k' : String) (v : α) (l : List (String × α))
    (hne : k' ≠ k) : lookupA k' (insertA k v l) = lookupA k' l := by
  induction l with
  | nil => simp [insertA, lookupA, Ne.symm hne]
  | cons p rest ih =>
      obtain ⟨a, b⟩ := p
      by_cases h : a = k
      · subst h
        simp [insertA, lookupA, Ne.symm hne]
      · simp only [insertA, if_neg h, lookupA]
        by_cases h' : a = k'
        · simp [h']
        · simp [h', ih]

theorem lookupA_eraseA_ne {α : Type} (k k' : String) (l : List (String × α))
    (hne : k' ≠ k) : lookupA k' (eraseA k l) = lookupA k' l := by
  induction l with
  | nil => simp [eraseA, lookupA]
  | cons p rest ih =>
      obtain ⟨a, b⟩ := p
      by_cases h : a = k
      · subst h
        simp [eraseA, lookupA, Ne.symm hne, ih]
      · simp only [eraseA, if_neg h, lookupA]
        by_cases h' : a = k'
        · simp [h']
        · simp [h', ih]

theorem hasKey_iff {α : Type} (k : String) (l : List (String × α)) :
    hasKey k l = true ↔ k ∈ keysA l := by
  induction l with
  | nil => simp [hasKey, lookupA, keysA]
  | cons p rest ih =>
      obtain ⟨a, b⟩ := p
      by_cases h : a = k
      · simp [hasKey, lookupA, keysA, h]
      · simp only [hasKey, lookupA, if_neg h, keysA, List.map_cons, List.mem_cons] at ih ⊢
        simp [Ne.symm h, ih]

theorem hasKey_congr {α β : Type} (k : String) (l₁ : List (String × α))
    (l₂ : List (String × β)) (h : keysA l₁ = keysA l₂) : hasKey k l₁ = hasKey k l₂ := by
  have e1 := hasKey_iff k l₁
  have e2 := hasKey_iff k l₂
  rw [h] at e1
  cases h1 : hasKey k l₁ with
  | true => exact ((e2.mpr (e1.mp h1))).symm
  | false =>
      cases h2 : hasKey k l₂ with
      | true => exact absurd (e1.mpr (e2.mp h2)) (by simp [h1])
      | false => rfl

theorem keysA_insertA {α : Type} (k : String) (v : α) (l : List (String × α)) :
    keysA (insertA k v l) = if hasKey k l then keysA l else keysA l ++ [k] := by
  induction l with
  | nil => simp [insertA, keysA, hasKey, lookupA]
  | cons p rest ih =>
      obtain ⟨a, b⟩ := p
      by_cases h : a = k
      · subst h
        simp [insertA, keysA, hasKey, lookupA]
      · simp only [insertA, if_neg h, keysA, List.map_cons, hasKey, lookupA] at ih ⊢
        rw [ih]
        by_cases hk : (lookupA k rest).isSome = true
        · simp [hk]
        · simp only [Bool.not_eq_true] at hk
          simp [hk]

/-- Key-level erasure: what `eraseA` does to the key list. -/
def eraseKey (k : String) : List String → List String
  | [] => []
  | x :: rest => if x = k then eraseKey k rest else x :: eraseKey k rest

theorem keysA_eraseA {α : Type} (k : String) (l : List (String × α)) :
    keysA (eraseA k l) = eraseKey k (keysA l) := by
  induction l with
  | nil => simp [eraseA, keysA, eraseKey]
  | cons p rest ih =>
      obtain ⟨a, b⟩ := p
      simp only [keysA] at ih
      by_cases h : a = k
      · simp [eraseA, keysA, eraseKey, h, ih]
      · simp [eraseA, keysA, eraseKey, h, ih]

theorem get_append_two (l : List Turn) (a b : Turn) :
    ((l ++ [a]) ++ [b]).get? l.length = some a := by
  induction l with
  | nil => rfl
  | cons x xs ih => simpa using ih

/-- Shape of a successful submission (the `try` branch of lines 133-147):
the active history gains the user turn and the model turn, the title is
replaced exactly when it still equals the identifier, and nothing else
changes. -/
theorem handle_ok_eq (s : SessionState) (p r : String) (t : Option String) (hp : p ≠ "") :
    handle_chat_submission p (.ok r) t s =
      { chats := insertA s.active_chat
          (get_active_chat_history s ++ [⟨"user", p⟩, ⟨"model", r⟩]) s.chats
        chat_titles :=
          if (lookupA s.active_chat s.chat_titles).getD "" = s.active_chat then
            insertA s.active_chat (generate_title_from_summary t p) s.chat_titles
          else s.chat_titles
        active_chat := s.active_chat
        chat_counter := s.chat_counter } := by
  have hlen : ((get_active_chat_history s ++ [(⟨"user", p⟩ : Turn)]) ++
      [(⟨"model", r⟩ : Turn)]).length - 2 = (get_active_chat_history s).length := by
    simp
  have h2 : ((get_active_chat_history s ++ [(⟨"user", p⟩ : Turn)]) ++
      [(⟨"model", r⟩ : Turn)]).length ≥ 2 := by
    simp
  simp only [handle_chat_submission, if_neg hp]
  congr 1
  · simp
  · rw [hlen, get_append_two]
    by_cases hd : (lookupA s.active_chat s.chat_titles).getD "" = s.active_chat
    · rw [if_pos ⟨hd, h2⟩, if_pos hd]
      simp
    · rw [if_neg (fun hc => hd hc.1), if_neg hd]

/-- Shape of a failing submission (the `except` branch of lines 148-153):
the active history gains the user turn and one error turn, everything
else is untouched, and the history is still persisted. -/
theorem handle_error_eq (s : SessionState) (p e : String) (t : Option String) (hp : p ≠ "") :
    handle_chat_submission p (.error e) t s =
      { chats := insertA s.active_chat
          (get_active_chat_history s ++
            [⟨"user", p⟩, ⟨"model", "Error: " ++ ("An error occurred: " ++ e)⟩]) s.chats
        chat_titles := s.chat_titles
        active_chat := s.active_chat
        chat_counter := s.chat_counter } := by
  simp only [handle_chat_submission, if_neg hp]
  congr 1
  simp

theorem keysA_eq_nil {α : Type} (l : List (String × α)) (h : keysA l = []) : l = [] := by
  cases l with
  | nil => rfl
  | cons p rest => simp [keysA] at h

theorem str_append_assoc (a b c : String) : (a ++ b) ++ c = a ++ (b ++ c) := by
  cases a with | mk la => cases b with | mk lb => cases c with | mk lc =>
  show String.mk ((la ++ lb) ++ lc) = String.mk (la ++ (lb ++ lc))
  rw [List.append_assoc]

/-! ### Claim theorems -/

/-- C10: `delete_chat` on an identifier that is not a key of `chats`
leaves the whole session state unchanged. -/
theorem delete_missing_id_noop (s : SessionState) (id : String)
    (hid : hasKey id s.chats = false) : delete_chat id s = s := by
  simp [delete_chat, hid]

/-- Witness for C10: deleting the absent "Chat 42" right after
initialization changes nothing. -/
theorem delete_missing_id_noop_witness : delete_chat "Chat 42" initState = initState :=
  delete_missing_id_noop initState "Chat 42" (by decide)

/-- C2: deleting the sole remaining thread (its identifier being the active
one) resets the store: `chats` holds exactly `"Chat 1"` with the single seed
greeting, the title of `"Chat 1"` is `"Chat 1"`, the active thread is
`"Chat 1"` and the counter is 1. -/
theorem delete_sole_thread_resets (s : SessionState) (id : String) (h : History)
    (hchats : s.chats = [(id, h)]) (hactive : s.active_chat = id) :
    (delete_chat id s).chats = [("Chat 1", [greeting])] ∧
    lookupA "Chat 1" (delete_chat id s).chat_titles = some "Chat 1" ∧
    (delete_chat id s).active_chat = "Chat 1" ∧
    (delete_chat id s).chat_counter = 1 := by
  have hk : hasKey id s.chats = true := by simp [hchats, hasKey, lookupA]
  have he : eraseA id s.chats = [] := by simp [hchats, eraseA]
  simp [delete_chat, hk, he, hactive, insertA, lookupA, lookupA_insertA_self]

/-- Witness for C2: after creating "Chat 2" and deleting "Chat 1", deleting
the sole remaining "Chat 2" resynthesizes the default state. -/
theorem delete_sole_thread_resets_witness :
    (delete_chat "Chat 2" (run initState [Op.newChat, Op.delete "Chat 1"])).chats
        = [("Chat 1", [greeting])] ∧
    lookupA "Chat 1"
        (delete_chat "Chat 2" (run initState [Op.newChat, Op.delete "Chat 1"])).chat_titles
        = some "Chat 1" ∧
    (delete_chat "Chat 2" (run initState [Op.newChat, Op.delete "Chat 1"])).active_chat
        = "Chat 1" ∧
    (delete_chat "Chat 2" (run initState [Op.newChat, Op.delete "Chat 1"])).chat_counter = 1 :=
  delete_sole_thread_resets (run initState [Op.newChat, Op.delete "Chat 1"])
    "Chat 2" [greeting] (by decide) (by decide)

/-- C7: a successful submission of a non-empty prompt appends exactly the
user turn and the model turn, in that order, to the active thread's history;
no other thread's history changes, and the active identifier and counter are
untouched. -/
theorem submit_success_appends_two_turns (s : SessionState) (prompt reply : String)
    (t : Option String) (hp : prompt ≠ "") :
    lookupA s.active_chat (handle_chat_submission prompt (.ok reply) t s).chats
        = some (get_active_chat_history s ++ [⟨"user", prompt⟩, ⟨"model", reply⟩]) ∧
    (∀ id, id ≠ s.active_chat →
        lookupA id (handle_chat_submission prompt (.ok reply) t s).chats
          = lookupA id s.chats) ∧
    (handle_chat_submission prompt (.ok reply) t s).active_chat = s.active_chat ∧
    (handle_chat_submission prompt (.ok reply) t s).chat_counter = s.chat_counter := by
  rw [handle_ok_eq s prompt reply t hp]
  exact ⟨lookupA_insertA_self _ _ _,
    fun id hid => lookupA_insertA_ne _ _ _ _ hid, rfl, rfl⟩

/-- Witness for C7: submitting "Hello" answered by "Hi there" in the fresh
session appends exactly those two turns after the greeting. -/
theorem submit_success_appends_two_turns_witness :
    lookupA initState.active_chat
        (handle_chat_submission "Hello" (.ok "Hi there") (some "Greeting") initState).chats
      = some (get_active_chat_history initState ++
          [⟨"user", "Hello"⟩, ⟨"model", "Hi there"⟩]) :=
  (submit_success_appends_two_turns initState "Hello" "Hi there"
    (some "Greeting") (by decide)).1

/-- C3: a submission whose completion call fails appends exactly one model
turn after the user turn, whose content extends the failure cause; the
retitle branch is not taken, the titles are untouched, and the extended
history is still persisted into the store (other threads unchanged). -/
theorem submit_failure_appends_error_turn (s : SessionState) (prompt e : String)
    (t : Option String) (hp : prompt ≠ "") :
    lookupA s.active_chat (handle_chat_submission prompt (.error e) t s).chats
        = some (get_active_chat_history s ++
            [⟨"user", prompt⟩, ⟨"model", "Error: " ++ ("An error occurred: " ++ e)⟩]) ∧
    (∃ pre : String, "Error: " ++ ("An error occurred: " ++ e) = pre ++ e) ∧
    retitle_invoked prompt (.error e) s = false ∧
    (handle_chat_submission prompt (.error e) t s).chat_titles = s.chat_titles ∧
    (handle_chat_submission prompt (.error e) t s).active_chat = s.active_chat ∧
    (handle_chat_submission prompt (.error e) t s).chat_counter = s.chat_counter ∧
    (∀ id, id ≠ s.active_chat →
        lookupA id (handle_chat_submission prompt (.error e) t s).chats
          = lookupA id s.chats) := by
  rw [handle_error_eq s prompt e t hp]
  exact ⟨lookupA_insertA_self _ _ _,
    ⟨"Error: " ++ "An error occurred: ",
      (str_append_assoc "Error: " "An error occurred: " e).symm⟩,
    rfl, rfl, rfl, rfl, fun id hid => lookupA_insertA_ne _ _ _ _ hid⟩

/-- Witness for C3: a failing completion for prompt "Hi" with cause
"quota exceeded" appends the user turn plus the single error turn. -/
theorem submit_failure_appends_error_turn_witness :
    lookupA initState.active_chat
        (handle_chat_submission "Hi" (.error "quota exceeded") none initState).chats
      = some (get_active_chat_history initState ++ [⟨"user", "Hi"⟩,
          ⟨"model", "Error: " ++ ("An error occurred: " ++ "quota exceeded")⟩]) :=
  (submit_failure_appends_error_turn initState "Hi" "quota exceeded"
    none (by decide)).1

/-- Counterexample to C8: the code trims the whole response before taking
the first line, so a response starting with a newline sanitizes to its
first non-blank line, while the claim's procedure (first line of the raw
text) yields the empty string. -/
theorem sanitize_order_counterexample :
    sanitizeTitle "\nWeekend Trip Plans" = "Weekend Trip Plans" ∧
    sanitizeTitleSpec "\nWeekend Trip Plans" = "" ∧
    sanitizeTitle "\nWeekend Trip Plans" ≠ sanitizeTitleSpec "\nWeekend Trip Plans" := by
  decide

/-- C8 (amended): sanitization equals the claim's procedure applied to the
whitespace-trimmed response text (the code strips the whole text before
extracting the first line); the claim's concrete example is unaffected and
sanitizes to "Weekend Trip Plans". -/
theorem sanitize_trims_before_first_line :
    (∀ text : String,
        sanitizeTitle text = sanitizeTitleSpec (String.mk (pyStrip text.data))) ∧
    sanitizeTitle "**\"Weekend Trip Plans\"**\nExtra line" = "Weekend Trip Plans" :=
  ⟨fun _ => rfl, by decide⟩

/-- C9: when title generation fails, the fallback title is the first five
whitespace-separated words of the prompt joined by single spaces followed by
"...", or the literal "New Chat" for an empty prompt; the failure does not
abort the enclosing submission, whose two turns are still appended and
persisted. -/
theorem title_fallback_first_five_words :
    generate_title_from_summary none "How do I bake sourdough bread at home"
        = "How do I bake sourdough..." ∧
    generate_title_from_summary none "" = "New Chat" ∧
    ∀ (s : SessionState) (prompt reply : String), prompt ≠ "" →
      lookupA s.active_chat (handle_chat_submission prompt (.ok reply) none s).chats
        = some (get_active_chat_history s ++ [⟨"user", prompt⟩, ⟨"model", reply⟩]) := by
  refine ⟨by decide, by decide, ?_⟩
  intro s prompt reply hp
  rw [handle_ok_eq s prompt reply none hp]
  exact lookupA_insertA_self _ _ _

/-- Witness for C9: with the title oracle failing (`none`), submitting
"hello" still persists both turns. -/
theorem title_fallback_first_five_words_witness :
    lookupA initState.active_chat
        (handle_chat_submission "hello" (.ok "hi there") none initState).chats
      = some (get_active_chat_history initState ++
          [⟨"user", "hello"⟩, ⟨"model", "hi there"⟩]) :=
  title_fallback_first_five_words.2.2 initState "hello" "hi there" (by decide)

/-- Counterexample to C1: the thread counter does decrease.  From the
initial state, creating "Chat 2" (counter 2), deleting "Chat 1" and then
deleting "Chat 2" (the last remaining thread) resets the counter from 2
back to 1 and re-mints the identifier "Chat 1". -/
theorem counter_decrease_counterexample :
    validTraceB initState [Op.newChat, Op.delete "Chat 1", Op.delete "Chat 2"] = true ∧
    (run initState [Op.newChat, Op.delete "Chat 1"]).chat_counter = 2 ∧
    (run initState [Op.newChat, Op.delete "Chat 1", Op.delete "Chat 2"]).chat_counter = 1 ∧
    hasKey "Chat 1"
      (run initState [Op.newChat, Op.delete "Chat 1", Op.delete "Chat 2"]).chats = true := by
  decide

/-- C1 (amended): across every user-facing operation the counter never
decreases, except that deleting the thread whose removal empties the store
resets the counter to 1 (after which "Chat 1" is minted a second time). -/
theorem counter_monotone_except_last_delete (s : SessionState) (op : Op) :
    s.chat_counter ≤ (step s op).chat_counter ∨
    ((step s op).chat_counter = 1 ∧
      ∃ id, op = Op.delete id ∧ eraseA id s.chats = []) := by
  cases op with
  | newChat => exact Or.inl (Nat.le_succ _)
  | select id => exact Or.inl (Nat.le_refl _)
  | submit p c t =>
      have hcounter : (handle_chat_submission p c t s).chat_counter = s.chat_counter := by
        by_cases hp : p = ""
        · simp [handle_chat_submission, hp]
        · cases c with
          | ok r => rw [handle_ok_eq s p r t hp]
          | error e => rw [handle_error_eq s p e t hp]
      exact Or.inl (le_of_eq hcounter.symm)
  | delete id =>
      by_cases hk : hasKey id s.chats = true
      · by_cases ha : id = s.active_chat
        · subst ha
          cases he : eraseA s.active_chat s.chats with
          | nil =>
              refine Or.inr ⟨?_, s.active_chat, rfl, he⟩
              simp [step, delete_chat, hk, he]
          | cons hd tl =>
              obtain ⟨k0, v0⟩ := hd
              refine Or.inl (le_of_eq ?_)
              simp [step, delete_chat, hk, he]
        · refine Or.inl (le_of_eq ?_)
          simp [step, delete_chat, hk, ha]
      · have hk' : hasKey id s.chats = false := by simpa using hk
        refine Or.inl (le_of_eq ?_)
        simp [step, delete_chat, hk']

/-- C5: over any sequence of thread-create and thread-delete operations
from the initialized session state, `chats` and `chat_titles` have the
same key list after every operation. -/
theorem create_delete_keys_agree (ops : List Op)
    (hops : ∀ op ∈ ops, isCreateDelete op = true) :
    keysA (run initState ops).chats = keysA (run initState ops).chat_titles := by
  suffices h : ∀ (l : List Op) (s : SessionState), (∀ op ∈ l, isCreateDelete op = true) →
      keysA s.chats = keysA s.chat_titles →
      keysA (run s l).chats = keysA (run s l).chat_titles by
    exact h ops initState hops rfl
  intro l
  induction l with
  | nil => intro s _ hs; exact hs
  | cons op rest ih =>
      intro s hl hs
      have hop := hl op (List.mem_cons_self op rest)
      have hrest := fun o ho => hl o (List.mem_cons_of_mem op ho)
      refine ih (step s op) hrest ?_
      cases op with
      | select id => simp [isCreateDelete] at hop
      | submit p c t => simp [isCreateDelete] at hop
      | newChat =>
          simp only [step, new_chat, keysA_insertA]
          rw [hasKey_congr _ s.chats s.chat_titles hs, hs]
      | delete id =>
          by_cases hk : hasKey id s.chats = true
          · have hk' : hasKey id s.chat_titles = true := by
              rw [← hasKey_congr id s.chats s.chat_titles hs]; exact hk
            by_cases ha : id = s.active_chat
            · subst ha
              cases he : eraseA s.active_chat s.chats with
              | nil =>
                  have hkeys : keysA (eraseA s.active_chat s.chat_titles) = [] := by
                    rw [keysA_eraseA, ← hs, ← keysA_eraseA, he]; rfl
                  have ht0 : eraseA s.active_chat s.chat_titles = [] :=
                    keysA_eq_nil _ hkeys
                  simp [step, delete_chat, hk, hk', he, ht0, insertA, keysA]
              | cons hd tl =>
                  obtain ⟨k0, v0⟩ := hd
                  have hkeq : keysA (eraseA s.active_chat s.chats)
                      = keysA (eraseA s.active_chat s.chat_titles) := by
                    rw [keysA_eraseA, keysA_eraseA, hs]
                  simp only [step, delete_chat, hk, hk', if_true, he, if_pos rfl]
                  rw [← he]
                  exact hkeq
            · have hkeq : keysA (eraseA id s.chats) = keysA (eraseA id s.chat_titles) := by
                rw [keysA_eraseA, keysA_eraseA, hs]
              simp only [step, delete_chat, hk, hk', if_true,
                if_neg ha]
              exact hkeq
          · have hk2 : hasKey id s.chats = false := by simpa using hk
            simp [step, delete_chat, hk2, hs]

/-- Witness for C5: creating "Chat 2" then deleting "Chat 1" leaves the two
maps with identical key lists. -/
theorem create_delete_keys_agree_witness :
    keysA (run initState [Op.newChat, Op.delete "Chat 1"]).chats
      = keysA (run initState [Op.newChat, Op.delete "Chat 1"]).chat_titles :=
  create_delete_keys_agree [Op.newChat, Op.delete "Chat 1"] (by decide)

/-- C6: in every reachable session state the active thread identifier is a
key of `chats`; every view-issuable operation preserves this. -/
theorem active_chat_exists (s : SessionState) (h : Reachable s) :
    hasKey s.active_chat s.chats = true := by
  obtain ⟨ops, hval, hrun⟩ := h
  subst hrun
  suffices h : ∀ (l : List Op) (s0 : SessionState), validTraceB s0 l = true →
      hasKey s0.active_chat s0.chats = true →
      hasKey (run s0 l).active_chat (run s0 l).chats = true by
    exact h ops initState hval (by decide)
  intro l
  induction l with
  | nil => intro s0 _ hs; exact hs
  | cons op rest ih =>
      intro s0 hval hs
      simp only [validTraceB, Bool.and_eq_true] at hval
      obtain ⟨hop, hrest⟩ := hval
      refine ih (step s0 op) hrest ?_
      cases op with
      | newChat => simp [step, new_chat, hasKey, lookupA_insertA_self]
      | select id => simpa [step, select_chat, validOp] using hop
      | delete id =>
          by_cases hk : hasKey id s0.chats = true
          · have hk0 : (lookupA id s0.chats).isSome = true := hk
            by_cases ha : id = s0.active_chat
            · subst ha
              cases he : eraseA s0.active_chat s0.chats with
              | nil =>
                  simp [step, delete_chat, hk, hk0, he, hasKey, insertA, lookupA]
              | cons hd tl =>
                  obtain ⟨k0, v0⟩ := hd
                  simp [step, delete_chat, hk, hk0, he, hasKey, lookupA]
            · have hne : s0.active_chat ≠ id := fun hc => ha hc.symm
              simp only [step, delete_chat, hk, hk0, if_true, if_neg ha, hasKey,
                lookupA_eraseA_ne id s0.active_chat _ hne]
              exact hs
          · have hk2 : hasKey id s0.chats = false := by simpa using hk
            simp only [step, delete_chat, hk2, Bool.false_eq_true, if_false]
            exact hs
      | submit p c t =>
          by_cases hp : p = ""
          · simp only [step]
            simp only [handle_chat_submission, hp, if_pos rfl]
            exact hs
          · simp only [step]
            cases c with
            | ok r =>
                rw [handle_ok_eq s0 p r t hp]
                simp [hasKey, lookupA_insertA_self]
            | error e =>
                rw [handle_error_eq s0 p e t hp]
                simp [hasKey, lookupA_insertA_self]

/-- Witness for C6: the initial state is reachable (empty trace) and its
active thread "Chat 1" is a key of `chats`. -/
theorem active_chat_exists_witness :
    hasKey initState.active_chat initState.chats = true :=
  active_chat_exists initState ⟨[], rfl, rfl⟩

theorem retitle_invoked_iff (s : SessionState) (p r : String) (hp : p ≠ "") :
    retitle_invoked p (.ok r) s = true ↔
      (lookupA s.active_chat s.chat_titles).getD "" = s.active_chat := by
  have hlen : (get_active_chat_history s ++
      [(⟨"user", p⟩ : Turn), (⟨"model", r⟩ : Turn)]).length ≥ 2 := by
    simp
  simp [retitle_invoked, hp, hlen]

/-- Helper for the amended C4: along a trace of select/submit operations in
which every successful submission would store a title different from `tid`,
the retitle branch runs for `tid` at most once, and not at all once the
stored title differs from the identifier. -/
theorem retitleCount_le_one_aux (tid : String) (l : List Op) :
    ∀ s : SessionState,
      (∀ op ∈ l, isThreadNeutral op = true) →
      (∀ (p r : String) (t : Option String), Op.submit p (.ok r) t ∈ l →
          generate_title_from_summary t p ≠ tid) →
      retitleCount tid s l ≤ 1 ∧
        ((lookupA tid s.chat_titles).getD "" ≠ tid → retitleCount tid s l = 0) := by
  induction l with
  | nil => exact fun s _ _ => ⟨Nat.zero_le 1, fun _ => rfl⟩
  | cons op rest ih =>
      intro s hops htit
      have hop := hops op (List.mem_cons_self op rest)
      have hrest : ∀ o ∈ rest, isThreadNeutral o = true :=
        fun o ho => hops o (List.mem_cons_of_mem op ho)
      have htitrest : ∀ (p r : String) (t : Option String), Op.submit p (.ok r) t ∈ rest →
          generate_title_from_summary t p ≠ tid :=
        fun p r t hm => htit p r t (List.mem_cons_of_mem op hm)
      cases op with
      | newChat => simp [isThreadNeutral] at hop
      | delete id => simp [isThreadNeutral] at hop
      | select id =>
          have h := ih (step s (Op.select id)) hrest htitrest
          have hcount : retitleCount tid s (Op.select id :: rest)
              = retitleCount tid (step s (Op.select id)) rest := by
            simp [retitleCount]
          have htl : (step s (Op.select id)).chat_titles = s.chat_titles := rfl
          exact ⟨by rw [hcount]; exact h.1,
            fun hne => by rw [hcount]; exact h.2 (by rwa [htl])⟩
      | submit p c t =>
          by_cases hp : p = ""
          · have hstep : step s (Op.submit p c t) = s := by
              cases c <;> simp [step, handle_chat_submission, hp]
            have hinv : retitle_invoked p c s = false := by
              cases c <;> simp [retitle_invoked, hp]
            have h := ih (step s (Op.submit p c t)) hrest htitrest
            rw [hstep] at h
            have hcount : retitleCount tid s (Op.submit p c t :: rest)
                = retitleCount tid s rest := by
              simp only [retitleCount, hinv]
              rw [hstep]
              simp
            exact ⟨by rw [hcount]; exact h.1, fun hne => by rw [hcount]; exact h.2 hne⟩
          · cases c with
            | error e =>
                have hinv : retitle_invoked p (.error e) s = false := rfl
                have hcount : retitleCount tid s (Op.submit p (.error e) t :: rest)
                    = retitleCount tid (step s (Op.submit p (.error e) t)) rest := by
                  simp [retitleCount, hinv]
                have htl : (step s (Op.submit p (.error e) t)).chat_titles
                    = s.chat_titles := by
                  show (handle_chat_submission p (.error e) t s).chat_titles = s.chat_titles
                  rw [handle_error_eq s p e t hp]
                have h := ih (step s (Op.submit p (.error e) t)) hrest htitrest
                exact ⟨by rw [hcount]; exact h.1,
                  fun hne => by rw [hcount]; exact h.2 (by rwa [htl])⟩
            | ok r =>
                have hstl : (step s (Op.submit p (.ok r) t)).chat_titles =
                    if (lookupA s.active_chat s.chat_titles).getD "" = s.active_chat then
                      insertA s.active_chat (generate_title_from_summary t p) s.chat_titles
                    else s.chat_titles := by
                  show (handle_chat_submission p (.ok r) t s).chat_titles = _
                  rw [handle_ok_eq s p r t hp]
                by_cases hd : (lookupA s.active_chat s.chat_titles).getD "" = s.active_chat
                · have hinv : retitle_invoked p (.ok r) s = true :=
                    (retitle_invoked_iff s p r hp).mpr hd
                  by_cases hat : s.active_chat = tid
                  · -- the retitle branch runs now and stores a non-default title
                    have hgen : generate_title_from_summary t p ≠ tid :=
                      htit p r t (List.mem_cons_self _ _)
                    have hcount : retitleCount tid s (Op.submit p (.ok r) t :: rest)
                        = 1 + retitleCount tid (step s (Op.submit p (.ok r) t)) rest := by
                      simp [retitleCount, hinv, hat]
                    have hnew : (lookupA tid
                        (step s (Op.submit p (.ok r) t)).chat_titles).getD ""
                        = generate_title_from_summary t p := by
                      rw [hstl, if_pos hd, ← hat, lookupA_insertA_self]
                      rfl
                    have h := ih (step s (Op.submit p (.ok r) t)) hrest htitrest
                    have hzero : retitleCount tid (step s (Op.submit p (.ok r) t)) rest = 0 :=
                      h.2 (by rw [hnew]; exact hgen)
                    refine ⟨by rw [hcount, hzero], fun hne => ?_⟩
                    exact absurd (hat ▸ hd) hne
                  · have hcount : retitleCount tid s (Op.submit p (.ok r) t :: rest)
                        = retitleCount tid (step s (Op.submit p (.ok r) t)) rest := by
                      simp [retitleCount, hat]
                    have htl : (lookupA tid (step s (Op.submit p (.ok r) t)).chat_titles)
                        = lookupA tid s.chat_titles := by
                      rw [hstl, if_pos hd]
                      exact lookupA_insertA_ne _ _ _ _ (fun hc => hat hc.symm)
                    have h := ih (step s (Op.submit p (.ok r) t)) hrest htitrest
                    exact ⟨by rw [hcount]; exact h.1,
                      fun hne => by rw [hcount]; exact h.2 (by rwa [htl])⟩
                · have hinv : retitle_invoked p (.ok r) s = false := by
                    have := retitle_invoked_iff s p r hp
                    cases hb : retitle_invoked p (.ok r) s with
                    | false => rfl
                    | true => exact absurd (this.mp hb) hd
                  have hcount : retitleCount tid s (Op.submit p (.ok r) t :: rest)
                      = retitleCount tid (step s (Op.submit p (.ok r) t)) rest := by
                    simp [retitleCount, hinv]
                  have htl : (step s (Op.submit p (.ok r) t)).chat_titles
                      = s.chat_titles := by
                    rw [hstl, if_neg hd]
                  have h := ih (step s (Op.submit p (.ok r) t)) hrest htitrest
                  exact ⟨by rw [hcount]; exact h.1,
                    fun hne => by rw [hcount]; exact h.2 (by rwa [htl])⟩

/-- Counterexample to C4: the retitle branch is NOT once-per-lifetime.  The
sentinel is only `title == identifier`, so when the generated title equals
the identifier (here the title model answers "Chat 1" for thread "Chat 1"),
the next successful exchange triggers the branch again: two successful
submissions yield two retitle invocations for the same, never-deleted
thread. -/
theorem retitle_reinvoked_counterexample :
    validTraceB initState
      [Op.submit "hi" (.ok "yo") (some "Chat 1"),
       Op.submit "tell me more" (.ok "sure") (some "A better title")] = true ∧
    retitleCount "Chat 1" initState
      [Op.submit "hi" (.ok "yo") (some "Chat 1"),
       Op.submit "tell me more" (.ok "sure") (some "A better title")] = 2 ∧
    hasKey "Chat 1"
      (run initState
        [Op.submit "hi" (.ok "yo") (some "Chat 1"),
         Op.submit "tell me more" (.ok "sure") (some "A better title")]).chats = true := by
  decide

/-- C4 (amended): a successful submission of a non-empty prompt takes the
retitle branch exactly when the thread's title still equals its identifier;
consequently, along any trace of select/submit operations in which every
stored title differs from the identifier, the branch runs at most once for
that thread.  (It can run again only if a generated title equals the
identifier, as the counterexample shows.) -/
theorem retitle_at_most_once :
    (∀ (s : SessionState) (p r : String), p ≠ "" →
        (retitle_invoked p (.ok r) s = true ↔
          (lookupA s.active_chat s.chat_titles).getD "" = s.active_chat)) ∧
    (∀ (tid : String) (ops : List Op) (s : SessionState),
        (∀ op ∈ ops, isThreadNeutral op = true) →
        (∀ (p r : String) (t : Option String), Op.submit p (.ok r) t ∈ ops →
            generate_title_from_summary t p ≠ tid) →
        retitleCount tid s ops ≤ 1) :=
  ⟨retitle_invoked_iff,
    fun tid ops s hops htit => (retitleCount_le_one_aux tid ops s hops htit).1⟩

/-- Witness for the amended C4: one successful exchange whose generated
title "A fine title" differs from "Chat 1" retitles at most once. -/
theorem retitle_at_most_once_witness :
    retitleCount "Chat 1" initState
      [Op.submit "hi" (.ok "yo") (some "A fine title")] ≤ 1 := by
  refine retitle_at_most_once.2 "Chat 1"
    [Op.submit "hi" (.ok "yo") (some "A fine title")] initState (by decide) ?_
  intro p r t hm
  simp only [List.mem_singleton, Op.submit.injEq, Except.ok.injEq] at hm
  obtain ⟨hp, hr, ht⟩ := hm
  subst hp
  subst ht
  decide

end GeminiChatBot
